import Mathlib

/-
Verification development for the diy dependency injector (diy.py).

The embedding mirrors the source:
  - Injector._providers is an association list from an optional qualifier
    name to an inner association list from registry key to provider.
  - provide / provide_instance / get_instance follow Injector.provide,
    Injector.provide_instance and Injector.get_instance.
  - MetaKind models the metaclass chain a class ends up with after the
    inject and singleton decorators ran, and metaCall models how a call of
    the class dispatches along that chain, exactly as the cooperative
    super calls in Injectable.__call__ and Singleton.__call__ do.
  - bindParams models how CPython binds positional and keyword arguments
    to the parameter list of the intercepted constructor; the constructed
    instance stores the bound arguments as its fields, as the example
    constructors in the module docstring do.
  - Object identity is modelled by an allocation counter: every
    construction returns an instance carrying a fresh id, so equality of
    instances in the model is object identity in the source.
  - Recursion between get_instance and construction (the self fallback
    calls a class, whose dependencies call get_instance again) is made
    total with a fuel parameter; running out of fuel is a distinguished
    error that never occurs in any theorem below.
-/

set_option maxHeartbeats 1000000

namespace Diy

/-- Identity of a Python class object; classes live in a table indexed by this. -/
abbrev TypeId := Nat

/-- A value usable as a registry key or as a requirement in a dependency
declaration: either a plain class, or a Named descriptor class as produced
by named(name, iface). -/
inductive Req where
  | ty (t : TypeId)
  | namedRef (name : String) (iface : TypeId)
deriving DecidableEq

/-- Runtime objects. An instance carries the allocation id it got when it
was constructed, so equality of instances in the model is object identity
in the source. The fields of an instance are the arguments its constructor
was invoked with, matching the example constructors of the source which
assign each parameter to an attribute of the same name. -/
inductive Obj where
  | ext (v : Nat)
  | inst (id : Nat) (cls : TypeId) (fields : List (String × Obj))

/-- A provider stored in the registry: provide stores the class itself,
provide_instance stores a closure returning a fixed object. -/
inductive Provider where
  | cls (t : TypeId)
  | instProv (o : Obj)

/-- Errors surfaced by the embedded operations. lookupError is the KeyError
raised by indexing self._providers with an unknown qualifier name,
assertionError is the failing issubclass assert in provide, and the
remaining argument errors are the TypeError cases of CPython argument
binding. fuelOut is an artifact of the fuel-based embedding. -/
inductive DIError where
  | lookupError
  | assertionError
  | missingArg (p : String)
  | duplicateArg (p : String)
  | unexpectedKwarg (p : String)
  | tooManyArgs
  | fuelOut
deriving DecidableEq

/-- Lookup in an association list, mirroring dict.get / dict indexing. -/
def alGet {α β : Type} [DecidableEq α] : List (α × β) → α → Option β
  | [], _ => none
  | (k, v) :: rest, k1 => if k = k1 then some v else alGet rest k1

/-- Update in an association list, mirroring dict assignment: replaces the
binding if the key is present, appends it otherwise. -/
def alSet {α β : Type} [DecidableEq α] : List (α × β) → α → β → List (α × β)
  | [], k, v => [(k, v)]
  | (k1, v1) :: rest, k, v =>
    if k1 = k then (k1, v) :: rest else (k1, v1) :: alSet rest k v

/-- The shape of the metaclass chain a class ends up with: plain means the
chain ends at type.__call__; injectable inner means Injectable.__call__
runs and its cooperative super call dispatches to inner; singleton inner
likewise for Singleton.__call__. -/
inductive MetaKind where
  | plain
  | injectable (inner : MetaKind)
  | singleton (inner : MetaKind)
deriving DecidableEq

/-- A class of the program: its method resolution order (itself first), the
parameter list of its constructor, the optional __dependencies__ attribute
set on it, and its metaclass chain. -/
structure ClassDef where
  mro : List TypeId
  params : List String
  deps : Option (List (String × Req))
  meta : MetaKind

/-- The table of classes of a program run. -/
abbrev Ct := TypeId → ClassDef

/-- The __dependencies__ attribute as read by Injectable.__call__: class
attribute lookup walks the mro and returns the first hit. -/
def depsOf (ct : Ct) (t : TypeId) : List (String × Req) :=
  ((ct t).mro.findSome? fun c => (ct c).deps).getD []

/-- The __instance__ attribute as read by Singleton.__call__ via getattr:
class attribute lookup walks the mro and returns the first hit. -/
def slotLookup (ct : Ct) (slots : List (TypeId × Obj)) (t : TypeId) : Option Obj :=
  (ct t).mro.findSome? fun c => alGet slots c

/-- issubclass on classes: a class is a subclass of every entry of its mro. -/
def issubclass (ct : Ct) (c i : TypeId) : Bool :=
  (ct c).mro.contains i

/-- The _providers mapping of the Injector. -/
abbrev Providers := List (Option String × List (Req × Provider))

/-- The mutable state threaded through the embedding: the shared registry,
the __instance__ slots set so far, and the allocation counter. -/
structure DIState where
  providers : Providers
  slots : List (TypeId × Obj)
  nextId : Nat

/-- The _providers dict of the freshly initialized Injector. -/
def initProviders : Providers := [(none, [])]

/-- Shared write path of provide and provide_instance:
self._providers.setdefault(name, dict()) followed by assignment at key. -/
def provideAux (p : Providers) (name : Option String) (key : Req) (prov : Provider) :
    Providers :=
  alSet p name (alSet ((alGet p name).getD []) key prov)

/-- Injector.provide: assert issubclass(cls, iface), then bind the class. -/
def provide (ct : Ct) (p : Providers) (iface cls : TypeId) (name : Option String) :
    Except DIError Providers :=
  if issubclass ct cls iface then
    .ok (provideAux p name (.ty iface) (.cls cls))
  else
    .error .assertionError

/-- Injector.provide_instance: bind a fixed object, with no conformance check. -/
def provide_instance (p : Providers) (iface : TypeId) (obj : Obj) (name : Option String) :
    Providers :=
  provideAux p name (.ty iface) (.instProv obj)

/-- Result of the provider lookup line of Injector.get_instance:
self._providers[name].get(iface_or_cls, iface_or_cls). Either a stored
provider, or the requirement itself as fallback. -/
inductive Resolved where
  | bound (p : Provider)
  | selfFallback (r : Req)

/-- The lookup phase of Injector.get_instance: indexing an unknown qualifier
name raises KeyError, a missing key inside an existing bucket falls back to
the requirement itself. -/
def resolve_provider (p : Providers) (req : Req) (name : Option String) :
    Except DIError Resolved :=
  match alGet p name with
  | none => .error .lookupError
  | some bucket =>
    match alGet bucket req with
    | some pr => .ok (.bound pr)
    | none => .ok (.selfFallback req)

/-- Drop every entry with the given key from an association list. -/
def removeKey {β : Type} : List (String × β) → String → List (String × β)
  | [], _ => []
  | (k, v) :: rest, p =>
    if k = p then removeKey rest p else (k, v) :: removeKey rest p

/-- CPython argument binding for a plain parameter list: positional
arguments fill the leading parameters (a keyword for such a parameter is a
duplicate), the remaining parameters are taken from keywords (a missing one
is an error), and leftover keywords or positionals are errors. -/
def bindParams : List String → List Obj → List (String × Obj) →
    Except DIError (List (String × Obj))
  | [], [], [] => .ok []
  | [], [], (k, _) :: _ => .error (.unexpectedKwarg k)
  | [], _ :: _, _ => .error .tooManyArgs
  | p :: ps, a :: rest, kwargs =>
    match alGet kwargs p with
    | some _ => .error (.duplicateArg p)
    | none =>
      match bindParams ps rest kwargs with
      | .error e => .error e
      | .ok bd => .ok ((p, a) :: bd)
  | p :: ps, [], kwargs =>
    match alGet kwargs p with
    | some v =>
      match bindParams ps [] (removeKey kwargs p) with
      | .error e => .error e
      | .ok bd => .ok ((p, v) :: bd)
    | none => .error (.missingArg p)

/-- type.__call__ in the model: bind the arguments against the parameter
list and allocate a fresh instance whose fields are the bound arguments. -/
def typeCall (ct : Ct) (t : TypeId) (args : List Obj) (kwargs : List (String × Obj))
    (st : DIState) : Except DIError (Obj × DIState) :=
  match bindParams (ct t).params args kwargs with
  | .error e => .error e
  | .ok fields => .ok (Obj.inst st.nextId t fields, { st with nextId := st.nextId + 1 })

mutual

/-- Injector.get_instance: look up the provider for the requirement under
the qualifier name, then call it. A bound class or the self fallback class
is constructed with zero arguments; a bound instance provider returns its
object; a Named descriptor reached through the fallback performs the
qualified lookup of Named.__call__. -/
def get_instance : Nat → Ct → Req → Option String → DIState →
    Except DIError (Obj × DIState)
  | 0, _, _, _, _ => .error .fuelOut
  | fuel + 1, ct, req, name, st =>
    match resolve_provider st.providers req name with
    | .error e => .error e
    | .ok (.bound (.cls t)) => construct fuel ct t [] [] st
    | .ok (.bound (.instProv o)) => .ok (o, st)
    | .ok (.selfFallback (.ty t)) => construct fuel ct t [] [] st
    | .ok (.selfFallback (.namedRef n i)) => get_instance fuel ct (.ty i) (some n) st

/-- Calling a class: dispatch along its metaclass chain. -/
def construct : Nat → Ct → TypeId → List Obj → List (String × Obj) → DIState →
    Except DIError (Obj × DIState)
  | 0, _, _, _, _, _ => .error .fuelOut
  | fuel + 1, ct, t, args, kwargs, st => metaCall fuel ct (ct t).meta t args kwargs st

/-- One step of the metaclass chain. The plain step is type.__call__. The
injectable step is Injectable.__call__: augment the keyword arguments from
the dependency declaration, then continue with the cooperative super call.
The singleton step is Singleton.__call__: return the memoized instance if
the __instance__ lookup finds one, otherwise construct through the super
call and memoize the result on the class itself. -/
def metaCall : Nat → Ct → MetaKind → TypeId → List Obj → List (String × Obj) → DIState →
    Except DIError (Obj × DIState)
  | 0, _, _, _, _, _, _ => .error .fuelOut
  | _ + 1, ct, .plain, t, args, kwargs, st => typeCall ct t args kwargs st
  | fuel + 1, ct, .injectable inner, t, args, kwargs, st =>
    match injectDeps fuel ct (depsOf ct t) kwargs st with
    | .error e => .error e
    | .ok (kw, st1) => metaCall fuel ct inner t args kw st1
  | fuel + 1, ct, .singleton inner, t, args, kwargs, st =>
    match slotLookup ct st.slots t with
    | some r => .ok (r, st)
    | none =>
      match metaCall fuel ct inner t args kwargs st with
      | .error e => .error e
      | .ok (r, st1) => .ok (r, { st1 with slots := alSet st1.slots t r })

/-- The loop body of Injectable.__call__: for every declared dependency
whose parameter is not among the caller supplied keyword arguments, resolve
the requirement through the injector and add the result as a keyword
argument. -/
def injectDeps : Nat → Ct → List (String × Req) → List (String × Obj) → DIState →
    Except DIError (List (String × Obj) × DIState)
  | 0, _, _, _, _ => .error .fuelOut
  | _ + 1, _, [], kwargs, st => .ok (kwargs, st)
  | fuel + 1, ct, (k, c) :: rest, kwargs, st =>
    if (alGet kwargs k).isSome then
      injectDeps fuel ct rest kwargs st
    else
      match get_instance fuel ct c none st with
      | .error e => .error e
      | .ok (v, st1) => injectDeps fuel ct rest (kwargs ++ [(k, v)]) st1

end

/-- The two metaclasses a class can be decorated with. -/
inductive MetaCls where
  | injectableCls
  | singletonCls

/-- Whether Injectable occurs in a metaclass chain. -/
def hasInjectable : MetaKind → Bool
  | .plain => false
  | .injectable _ => true
  | .singleton inner => hasInjectable inner

/-- Whether Singleton occurs in a metaclass chain. -/
def hasSingleton : MetaKind → Bool
  | .plain => false
  | .injectable inner => hasSingleton inner
  | .singleton _ => true

/-- The function _with_meta of the source: if the metaclass of the class is
already a subclass of the requested metaclass, keep it, otherwise extend it
on the fly by prepending the requested metaclass to the bases of the old
one, which prepends one dispatch step to the chain. -/
def with_meta : MetaCls → MetaKind → MetaKind
  | .injectableCls, m => if hasInjectable m then m else .injectable m
  | .singletonCls, m => if hasSingleton m then m else .singleton m

/-- The function _inject of the source: rebuild the class with the new
metaclass and set __dependencies__ on it. -/
def _inject (mc : MetaCls) (dependencies : List (String × Req)) (c : ClassDef) :
    ClassDef :=
  { c with meta := with_meta mc c.meta, deps := some dependencies }

/-- The inject decorator. -/
def inject (dependencies : List (String × Req)) (c : ClassDef) : ClassDef :=
  _inject .injectableCls dependencies c

/-- The singleton decorator. -/
def singleton (dependencies : List (String × Req)) (c : ClassDef) : ClassDef :=
  _inject .singletonCls dependencies c

/-- The function named of the source: a Named descriptor for iface under
the qualifier name. -/
def named (name : String) (iface : TypeId) : Req :=
  .namedRef name iface

/-- Field access on an instance. -/
def fieldOf : Obj → String → Option Obj
  | .ext _, _ => none
  | .inst _ _ fields, p => alGet fields p

/-- Registry states reachable through the public registration API from the
freshly initialized injector. -/
inductive Reached (ct : Ct) : Providers → Prop where
  | init : Reached ct initProviders
  | provide (p p1 : Providers) (i c : TypeId) (nm : Option String) :
      Reached ct p → provide ct p i c nm = .ok p1 → Reached ct p1
  | provide_instance (p : Providers) (i : TypeId) (o : Obj) (nm : Option String) :
      Reached ct p → Reached ct (provide_instance p i o nm)

/-! ### Concrete example programs used by witnesses and counterexamples -/

/-- The state right after module import: fresh injector, no singleton
slots set, allocation counter at zero. -/
def st0 : DIState := ⟨initProviders, [], 0⟩

/-- Class 0 is a plain concrete class; class 1 declares dependency p on
class 0 through the inject decorator and takes p as constructor parameter. -/
def ct1 : Ct := fun t =>
  if t = 1 then inject [("p", Req.ty 0)] ⟨[1], ["p"], none, .plain⟩
  else ⟨[0], [], none, .plain⟩

/-- A single plain concrete class, never registered anywhere. -/
def ct2 : Ct := fun _ => ⟨[0], [], none, .plain⟩

/-- Class 0 is a plain concrete class; class 1 is declared through the
singleton decorator with a dependency mapping dep to class 0, and its
constructor requires the parameter dep; class 2 carries the identical
declaration through the inject decorator instead. -/
def ct3 : Ct := fun t =>
  if t = 1 then singleton [("dep", Req.ty 0)] ⟨[1], ["dep"], none, .plain⟩
  else if t = 2 then inject [("dep", Req.ty 0)] ⟨[2], ["dep"], none, .plain⟩
  else ⟨[0], [], none, .plain⟩

/-- Class 1 is declared through the singleton decorator with an empty
dependency mapping and a zero parameter constructor. -/
def ct4 : Ct := fun t =>
  if t = 1 then singleton [] ⟨[1], [], none, .plain⟩
  else ⟨[0], [], none, .plain⟩

/-- Class 0 is an interface; class 1 is an implementation subclassing it. -/
def ct5 : Ct := fun t =>
  if t = 1 then ⟨[1, 0], [], none, .plain⟩
  else ⟨[0], [], none, .plain⟩

/-- The fixed instance bound under qualifier n in the C5 scenario. -/
def b5 : Obj := .ext 99

/-- The registry after provide(Interface 0, Implementation 1). -/
def p5 : Providers := provideAux initProviders none (.ty 0) (.cls 1)

/-- The state after additionally provide_instance(Interface 0, b5, name n). -/
def st5 : DIState := ⟨provide_instance p5 0 b5 (some "n"), [], 0⟩

/-- A single plain concrete class, for the unknown qualifier scenario. -/
def ct6 : Ct := fun _ => ⟨[0], [], none, .plain⟩

/-- Two unrelated classes: neither appears in the mro of the other. -/
def ct7 : Ct := fun t => ⟨[t], [], none, .plain⟩

/-- Class 0 is a plain concrete class; class 1 declares dependency p on
class 0 and takes p as its only constructor parameter. -/
def ct9 : Ct := fun t =>
  if t = 1 then inject [("p", Req.ty 0)] ⟨[1], ["p"], none, .plain⟩
  else ⟨[0], [], none, .plain⟩

/-- Class 1 is a singleton declared class; class 2 is a subclass of it,
inheriting the Singleton metaclass, with no declaration of its own. -/
def ct10 : Ct := fun t =>
  if t = 2 then ⟨[2, 1], [], none, .singleton .plain⟩
  else if t = 1 then singleton [] ⟨[1], [], none, .plain⟩
  else ⟨[0], [], none, .plain⟩

/-! ### Association list lemmas -/

theorem alGet_alSet_self {α β : Type} [DecidableEq α] (d : List (α × β)) (k : α) (v : β) :
    alGet (alSet d k v) k = some v := by
  induction d with
  | nil => simp [alGet, alSet]
  | cons hd rest ih =>
    obtain ⟨k1, v1⟩ := hd
    by_cases h : k1 = k
    · subst h
      simp [alGet, alSet]
    · simp [alGet, alSet, h, ih]

theorem alGet_alSet_ne {α β : Type} [DecidableEq α] (d : List (α × β)) (k k1 : α) (v : β)
    (h : k ≠ k1) : alGet (alSet d k v) k1 = alGet d k1 := by
  induction d with
  | nil => simp [alGet, alSet, h]
  | cons hd rest ih =>
    obtain ⟨k2, v2⟩ := hd
    by_cases h2 : k2 = k
    · subst h2
      simp [alGet, alSet, h]
    · simp [alGet, alSet, h2, ih]

theorem alGet_append_some {α β : Type} [DecidableEq α] {d : List (α × β)} {k : α} {v : β}
    (e : List (α × β)) (h : alGet d k = some v) : alGet (d ++ e) k = some v := by
  induction d with
  | nil => simp [alGet] at h
  | cons hd rest ih =>
    obtain ⟨k1, v1⟩ := hd
    by_cases h1 : k1 = k
    · subst h1
      simp [alGet] at h ⊢
      exact h
    · simp [alGet, h1] at h ⊢
      exact ih h

theorem alGet_removeKey_ne {β : Type} {d : List (String × β)} {p q : String}
    (h : p ≠ q) : alGet (removeKey d q) p = alGet d p := by
  induction d with
  | nil => simp [removeKey]
  | cons hd rest ih =>
    obtain ⟨k, v⟩ := hd
    by_cases hk : k = q
    · subst hk
      have : ¬ k = p := fun he => h (he ▸ rfl)
      simp [removeKey, alGet, this, ih]
    · by_cases hp : k = p
      · subst hp
        simp [removeKey, alGet, hk]
      · simp [removeKey, alGet, hk, hp, ih]

/-! ### Argument binding lemmas -/

theorem bindParams_kw_field {ps : List String} {args : List Obj}
    {kw bd : List (String × Obj)} {p : String} {x : Obj}
    (hok : bindParams ps args kw = .ok bd) (hkw : alGet kw p = some x) :
    alGet bd p = some x := by
  induction ps generalizing args kw bd with
  | nil =>
    match args, kw, hok with
    | [], [], hok => simp [alGet] at hkw
  | cons q ps ih =>
    match args with
    | a :: rest =>
      rw [bindParams] at hok
      cases hq : alGet kw q with
      | some w => rw [hq] at hok; exact absurd hok (by simp)
      | none =>
        rw [hq] at hok
        have hpq : q ≠ p := fun he => by rw [he, hkw] at hq; exact Option.noConfusion hq
        cases hrec : bindParams ps rest kw with
        | error e => rw [hrec] at hok; exact absurd hok (by simp)
        | ok bd1 =>
          rw [hrec] at hok
          simp at hok
          subst hok
          simpa [alGet, hpq] using ih hrec hkw
    | [] =>
      rw [bindParams] at hok
      cases hq : alGet kw q with
      | none => rw [hq] at hok; exact absurd hok (by simp)
      | some v =>
        rw [hq] at hok
        cases hrec : bindParams ps [] (removeKey kw q) with
        | error e => rw [hrec] at hok; exact absurd hok (by simp)
        | ok bd1 =>
          rw [hrec] at hok
          simp at hok
          subst hok
          by_cases hpq : p = q
          · subst hpq
            rw [hkw] at hq
            simp [alGet]
            exact (Option.some.injEq _ _ ▸ hq.symm :)
          · have : alGet (removeKey kw q) p = some x := by
              rw [alGet_removeKey_ne hpq]; exact hkw
            have hq2 : ¬ q = p := fun he => hpq (he ▸ rfl)
            simpa [alGet, hq2] using ih hrec this

/-! ### Injection loop lemmas -/

theorem injectDeps_preserves {ct : Ct} {p : String} {x : Obj} :
    ∀ (fuel : Nat) (deps : List (String × Req)) (kw : List (String × Obj))
      (st : DIState) (kw1 : List (String × Obj)) (st1 : DIState),
      injectDeps fuel ct deps kw st = .ok (kw1, st1) → alGet kw p = some x →
      alGet kw1 p = some x := by
  intro fuel
  induction fuel with
  | zero => intro deps kw st kw1 st1 hok; exact absurd hok (by simp [injectDeps])
  | succ f ih =>
    intro deps kw st kw1 st1 hok hkw
    match deps with
    | [] =>
      rw [injectDeps] at hok
      simp at hok
      obtain ⟨h1, h2⟩ := hok
      subst h1
      exact hkw
    | (k, c) :: rest =>
      rw [injectDeps] at hok
      by_cases hk : (alGet kw k).isSome
      · rw [if_pos hk] at hok
        exact ih rest kw st kw1 st1 hok hkw
      · rw [if_neg hk] at hok
        cases hres : get_instance f ct c none st with
        | error e => rw [hres] at hok; exact absurd hok (by simp)
        | ok vs =>
          obtain ⟨v, stx⟩ := vs
          rw [hres] at hok
          exact ih rest (kw ++ [(k, v)]) stx kw1 st1 hok (alGet_append_some _ hkw)

/-! ### Claim theorems -/

/-- C1: for every type T with a dependency declaration mapping parameter p
to a requirement, constructing T with a caller supplied keyword argument
for p yields an instance whose p value is exactly the callers argument,
and the interceptor performs no registry resolution for p: the loop
iteration for a parameter already present among the keyword arguments is a
no-op. -/
theorem C1_caller_override (ct : Ct) (fuel : Nat) (t : TypeId) (args : List Obj)
    (kwargs : List (String × Obj)) (st : DIState) (p : String) (x : Obj) (r : Req)
    (obj : Obj) (st1 : DIState)
    (hmeta : (ct t).meta = .injectable .plain)
    (_hdep : (p, r) ∈ depsOf ct t)
    (hkw : alGet kwargs p = some x)
    (hok : construct fuel ct t args kwargs st = .ok (obj, st1)) :
    fieldOf obj p = some x ∧
    ∀ (f2 : Nat) (r2 : Req) (rest : List (String × Req)) (kw2 : List (String × Obj))
      (st2 : DIState), (alGet kw2 p).isSome →
      injectDeps (f2 + 1) ct ((p, r2) :: rest) kw2 st2 = injectDeps f2 ct rest kw2 st2 := by
  constructor
  · cases fuel with
    | zero => exact absurd hok (by simp [construct])
    | succ f =>
      rw [construct, hmeta] at hok
      cases f with
      | zero => exact absurd hok (by simp [metaCall])
      | succ g =>
        simp only [metaCall] at hok
        cases hinj : injectDeps g ct (depsOf ct t) kwargs st with
        | error e => rw [hinj] at hok; exact absurd hok (by simp)
        | ok ks =>
          obtain ⟨kw1, stx⟩ := ks
          rw [hinj] at hok
          cases g with
          | zero => exact absurd hok (by simp [metaCall])
          | succ h =>
            simp only [metaCall, typeCall] at hok
            cases hbind : bindParams (ct t).params args kw1 with
            | error e => rw [hbind] at hok; exact absurd hok (by simp)
            | ok fields =>
              rw [hbind] at hok
              simp only [Except.ok.injEq, Prod.mk.injEq] at hok
              obtain ⟨ho, _⟩ := hok
              have hx := injectDeps_preserves (h + 1) (depsOf ct t) kwargs st kw1 stx
                hinj hkw
              rw [← ho]
              simpa [fieldOf] using bindParams_kw_field hbind hx
  · intro f2 r2 rest kw2 st2 hp
    simp only [injectDeps]
    rw [if_pos hp]

/-- C1 witness: a concrete dependent class constructed with its dependency
parameter given as a keyword keeps exactly the callers value and the
injection loop iteration for that parameter is a no-op. -/
theorem C1_caller_override_witness :
    construct 10 ct1 1 [] [("p", Obj.ext 7)] st0 =
      .ok (Obj.inst 0 1 [("p", Obj.ext 7)], ⟨initProviders, [], 1⟩) ∧
    fieldOf (Obj.inst 0 1 [("p", Obj.ext 7)]) "p" = some (Obj.ext 7) ∧
    injectDeps 3 ct1 [("p", Req.ty 0)] [("p", Obj.ext 7)] st0 =
      injectDeps 2 ct1 [] [("p", Obj.ext 7)] st0 :=
  ⟨rfl,
   (C1_caller_override ct1 10 1 [] [("p", Obj.ext 7)] st0 "p" (Obj.ext 7) (Req.ty 0)
      (Obj.inst 0 1 [("p", Obj.ext 7)]) ⟨initProviders, [], 1⟩ rfl (by decide) rfl rfl).1,
   (C1_caller_override ct1 10 1 [] [("p", Obj.ext 7)] st0 "p" (Obj.ext 7) (Req.ty 0)
      (Obj.inst 0 1 [("p", Obj.ext 7)]) ⟨initProviders, [], 1⟩ rfl (by decide) rfl rfl).2
     2 (Req.ty 0) [] [("p", Obj.ext 7)] st0 rfl⟩

/-- C2: when the qualifier bucket exists and holds no binding for a class
requirement, get_instance falls back to calling the requirement itself
with zero arguments; in particular a plain concrete class with a zero
parameter constructor that was never registered resolves to a freshly
constructed instance of itself. -/
theorem C2_self_fallback (ct : Ct) (fuel : Nat) (st : DIState) (name : Option String)
    (t : TypeId) (bucket : List (Req × Provider))
    (hb : alGet st.providers name = some bucket)
    (hu : alGet bucket (.ty t) = none) :
    get_instance (fuel + 1) ct (.ty t) name st = construct fuel ct t [] [] st ∧
    ((ct t).meta = .plain → (ct t).params = [] → ∀ g : Nat,
      get_instance (g + 1 + 1 + 1) ct (.ty t) name st =
        .ok (Obj.inst st.nextId t [], { st with nextId := st.nextId + 1 })) := by
  constructor
  · simp only [get_instance, resolve_provider, hb, hu]
  · intro hm hp g
    simp only [get_instance, resolve_provider, hb, hu, construct, hm, metaCall, typeCall,
      hp, bindParams]

/-- C2 witness: a never registered plain concrete class resolves through
the self fallback to a fresh instance of itself. -/
theorem C2_self_fallback_witness :
    alGet st0.providers none = some [] ∧
    alGet ([] : List (Req × Provider)) (.ty 0) = none ∧
    get_instance 3 ct2 (.ty 0) none st0 = construct 2 ct2 0 [] [] st0 ∧
    get_instance 3 ct2 (.ty 0) none st0 =
      .ok (Obj.inst st0.nextId 0 [], { st0 with nextId := st0.nextId + 1 }) :=
  ⟨rfl, rfl,
   (C2_self_fallback ct2 2 st0 none 0 [] rfl rfl).1,
   (C2_self_fallback ct2 2 st0 none 0 [] rfl rfl).2 rfl rfl 0⟩

/-- C3: evaluation of the code at the failing input of the claim. Class 1
of ct3 is declared through the singleton decorator with a non empty
dependency mapping; the spec and the module docstring state that the first
call constructs with full dependency injection. The code instead leaves
Injectable out of the metaclass chain built for a class decorated only
with singleton, so __dependencies__ is set but never read: the first call
reaches the constructor without the dep argument and fails, performing no
injection, while the identical declaration through the inject decorator
(class 2) succeeds with dep injected. -/
theorem C3_singleton_skips_injection :
    (ct3 1).deps = some [("dep", Req.ty 0)] ∧
    (ct3 1).meta = .singleton .plain ∧
    construct 10 ct3 1 [] [] st0 = .error (.missingArg "dep") ∧
    construct 10 ct3 2 [] [] st0 =
      .ok (Obj.inst 1 2 [("dep", Obj.inst 0 0 [])], ⟨initProviders, [], 2⟩) :=
  ⟨rfl, rfl, rfl, rfl⟩

/-- C4: for a singleton declared type, after a first successful
construction every subsequent call, whatever arguments it supplies,
returns the identical memoized instance and leaves the state unchanged, so
no re-construction and no re-injection happen. -/
theorem C4_singleton_memoized (ct : Ct) (t : TypeId) (inner : MetaKind)
    (mrest : List TypeId) (f1 : Nat) (args1 : List Obj) (kw1 : List (String × Obj))
    (st st1 : DIState) (r : Obj)
    (hmeta : (ct t).meta = .singleton inner)
    (hmro : (ct t).mro = t :: mrest)
    (h1 : construct f1 ct t args1 kw1 st = .ok (r, st1)) :
    ∀ (f2 : Nat) (args2 : List Obj) (kw2 : List (String × Obj)),
      construct (f2 + 1 + 1) ct t args2 kw2 st1 = .ok (r, st1) := by
  intro f2 args2 kw2
  have hslot : slotLookup ct st1.slots t = some r := by
    cases f1 with
    | zero => exact absurd h1 (by simp [construct])
    | succ f =>
      rw [construct, hmeta] at h1
      cases f with
      | zero => exact absurd h1 (by simp [metaCall])
      | succ g =>
        simp only [metaCall] at h1
        cases hsl : slotLookup ct st.slots t with
        | some r0 =>
          rw [hsl] at h1
          simp only [Except.ok.injEq, Prod.mk.injEq] at h1
          obtain ⟨hr, hst⟩ := h1
          subst hr
          subst hst
          exact hsl
        | none =>
          rw [hsl] at h1
          cases hc : metaCall g ct inner t args1 kw1 st with
          | error e => rw [hc] at h1; exact absurd h1 (by simp)
          | ok rs =>
            obtain ⟨r2, st2⟩ := rs
            rw [hc] at h1
            simp only [Except.ok.injEq, Prod.mk.injEq] at h1
            obtain ⟨hr, hst⟩ := h1
            subst hr
            rw [← hst]
            simp [slotLookup, hmro, alGet_alSet_self]
  rw [construct, hmeta]
  simp only [metaCall, hslot]

/-- C4 witness: the concrete singleton class of ct4, once constructed,
returns the memoized instance on a second call that supplies both a
positional and a keyword argument, with no state change. -/
theorem C4_singleton_memoized_witness :
    construct 3 ct4 1 [] [] st0 =
      .ok (Obj.inst 0 1 [], ⟨initProviders, [(1, Obj.inst 0 1 [])], 1⟩) ∧
    construct 4 ct4 1 [Obj.ext 7] [("z", Obj.ext 8)]
        ⟨initProviders, [(1, Obj.inst 0 1 [])], 1⟩ =
      .ok (Obj.inst 0 1 [], ⟨initProviders, [(1, Obj.inst 0 1 [])], 1⟩) :=
  ⟨rfl,
   C4_singleton_memoized ct4 1 .plain [] 3 [] [] st0
     ⟨initProviders, [(1, Obj.inst 0 1 [])], 1⟩ (Obj.inst 0 1 []) rfl rfl rfl
     2 [Obj.ext 7] [("z", Obj.ext 8)]⟩

/-- C5: a named qualified requirement, resolved through get_instance while
unbound itself, performs the qualified lookup for its interface under its
qualifier name rather than the unqualified one; and bindings under
distinct qualifiers are isolated: after provide of implementation 1 for
interface 0 and provide_instance of the object b5 under qualifier n, the
unqualified resolution constructs an implementation instance while the
qualified one returns exactly b5. -/
theorem C5_named_qualified (ct : Ct) (fuel : Nat) (st : DIState) (n : String)
    (i : TypeId) (q : Option String) (bucket : List (Req × Provider))
    (hb : alGet st.providers q = some bucket)
    (hu : alGet bucket (.namedRef n i) = none) :
    get_instance (fuel + 1) ct (named n i) q st = get_instance fuel ct (.ty i) (some n) st ∧
    provide ct5 initProviders 0 1 none = .ok p5 ∧
    get_instance 3 ct5 (.ty 0) none st5 = .ok (Obj.inst 0 1 [], { st5 with nextId := 1 }) ∧
    get_instance 3 ct5 (.ty 0) (some "n") st5 = .ok (b5, st5) := by
  refine ⟨?_, rfl, rfl, rfl⟩
  simp only [named, get_instance, resolve_provider, hb, hu]

/-- C5 witness: the qualified redirection equation at a concrete registry
whose default bucket is empty. -/
theorem C5_named_qualified_witness :
    alGet st0.providers none = some [] ∧
    alGet ([] : List (Req × Provider)) (.namedRef "n" 0) = none ∧
    get_instance 3 ct5 (named "n" 0) none st0 = get_instance 2 ct5 (.ty 0) (some "n") st0 :=
  ⟨rfl, rfl, (C5_named_qualified ct5 2 st0 "n" 0 none [] rfl rfl).1⟩

/-- Registration keeps the default qualifier bucket alive: provideAux can
only add or replace buckets, never remove the one from initialization. -/
theorem provideAux_default_bucket (p : Providers) (nm : Option String) (k : Req)
    (pr : Provider) (h : ∃ b, alGet p none = some b) :
    ∃ b, alGet (provideAux p nm k pr) none = some b := by
  obtain ⟨b, hb⟩ := h
  cases nm with
  | none => exact ⟨_, alGet_alSet_self _ _ _⟩
  | some s =>
    refine ⟨b, ?_⟩
    rw [provideAux, alGet_alSet_ne _ _ _ _ (by simp)]
    exact hb

/-- Every registry reachable through the registration API still has the
default qualifier bucket created at initialization. -/
theorem reached_default_bucket {ct : Ct} {p : Providers} (h : Reached ct p) :
    ∃ b, alGet p none = some b := by
  induction h with
  | init => exact ⟨[], rfl⟩
  | provide p1 p2 i c nm hr hok ih =>
    rw [provide] at hok
    by_cases hs : issubclass ct c i
    · rw [if_pos hs] at hok
      simp only [Except.ok.injEq] at hok
      rw [← hok]
      exact provideAux_default_bucket p1 nm _ _ ih
    · rw [if_neg hs] at hok
      exact absurd hok (by simp)
  | provide_instance p1 i o nm hr ih =>
    exact provideAux_default_bucket p1 nm _ _ ih

/-- C6: resolution under a qualifier name that never received any binding
fails with the lookup error, while under the default qualifier the lookup
phase always succeeds for every registry reachable from initialization:
the default bucket exists from the start, so a missing binding there takes
the self fallback instead of raising. -/
theorem C6_unknown_qualifier (ct : Ct) (st : DIState) (q : String) (req : Req) (fuel : Nat)
    (hq : alGet st.providers (some q) = none) :
    get_instance (fuel + 1) ct req (some q) st = .error .lookupError ∧
    ∀ p, Reached ct p → ∀ r : Req, ∃ res, resolve_provider p r none = .ok res := by
  constructor
  · simp only [get_instance, resolve_provider, hq]
  · intro p hp r
    obtain ⟨b, hb⟩ := reached_default_bucket hp
    simp only [resolve_provider, hb]
    cases h2 : alGet b r with
    | some pr => exact ⟨_, rfl⟩
    | none => exact ⟨_, rfl⟩

/-- C6 witness: a qualifier never registered into raises, while the lookup
phase on the freshly initialized registry succeeds. -/
theorem C6_unknown_qualifier_witness :
    alGet st0.providers (some "missing") = none ∧
    get_instance 1 ct6 (.ty 0) (some "missing") st0 = .error .lookupError ∧
    ∃ res, resolve_provider initProviders (.ty 0) none = .ok res :=
  ⟨rfl,
   (C6_unknown_qualifier ct6 st0 "missing" (.ty 0) 0 rfl).1,
   (C6_unknown_qualifier ct6 st0 "missing" (.ty 0) 0 rfl).2 initProviders .init (.ty 0)⟩

/-- C7: provide with a class that does not satisfy the interface fails
with the assertion error at registration time; the assert runs before the
write, so the failing call produces no updated registry and the callers
registry, in particular its binding for the qualifier and interface key,
is untouched. -/
theorem C7_contract_violation (ct : Ct) (p : Providers) (iface cls : TypeId)
    (name : Option String) (h : issubclass ct cls iface = false) :
    provide ct p iface cls name = .error .assertionError := by
  simp [provide, h]

/-- C7 witness: binding class 1 to the unrelated class 0 fails with the
assertion error. -/
theorem C7_contract_violation_witness :
    issubclass ct7 1 0 = false ∧
    provide ct7 initProviders 0 1 none = .error .assertionError :=
  ⟨rfl, C7_contract_violation ct7 initProviders 0 1 none rfl⟩

/-- C8: provide_instance performs no conformance check: it is a total
function that accepts every interface and every object, and the provider
it installs returns exactly the bound object on each resolution, leaving
the state unchanged. -/
theorem C8_instance_binding (ct : Ct) (fuel : Nat) (p : Providers) (iface : TypeId)
    (obj : Obj) (name : Option String) (slots : List (TypeId × Obj)) (nid : Nat) :
    get_instance (fuel + 1) ct (.ty iface) name
        ⟨provide_instance p iface obj name, slots, nid⟩ =
      .ok (obj, ⟨provide_instance p iface obj name, slots, nid⟩) := by
  simp only [get_instance, resolve_provider, provide_instance, provideAux,
    alGet_alSet_self]

/-- C9 counterexample: the claim states that a caller may pass a declared
dependency positionally to bypass injection entirely, construction
succeeding with the positional value and no resolution injected for the
parameter. On class 1 of ct9, whose single parameter p is declared as a
dependency, the positional call fails instead: the interceptor only
inspects keyword arguments, still resolves p and adds it as a keyword
argument, and the constructor call aborts on the duplicated parameter. -/
theorem C9_positional_counterexample :
    construct 10 ct9 1 [Obj.ext 5] [] st0 = .error (.duplicateArg "p") ∧
    ∀ obj st1, construct 10 ct9 1 [Obj.ext 5] [] st0 ≠ .ok (obj, st1) :=
  ⟨rfl, fun _ _ h =>
    Except.noConfusion ((show construct 10 ct9 1 [Obj.ext 5] [] st0 =
      .error (.duplicateArg "p") from rfl).symm.trans h)⟩

/-- C9 amended: positional arguments are not inspected by the interceptor;
injection is decided solely on keyword argument presence, so passing the
declared dependency positionally does not bypass injection: the
requirement is still resolved through the registry and added as a keyword
argument, and the constructor call then fails on the duplicated parameter
instead of succeeding with the callers positional value. -/
theorem C9_positional_no_bypass (ct : Ct) (fuel : Nat) (t : TypeId) (p : String)
    (r : Req) (v w : Obj) (st st1 : DIState)
    (hmeta : (ct t).meta = .injectable .plain)
    (hdeps : depsOf ct t = [(p, r)])
    (hparams : (ct t).params = [p])
    (hres : get_instance (fuel + 1) ct r none st = .ok (w, st1)) :
    construct (fuel + 1 + 1 + 1 + 1) ct t [v] [] st = .error (.duplicateArg p) := by
  rw [construct, hmeta]
  simp only [metaCall, hdeps, injectDeps, alGet, Option.isSome_none, Bool.false_eq_true,
    if_false, hres, typeCall, hparams, bindParams, List.append_nil, List.nil_append,
    if_true]

/-- C9 amended witness: on the concrete dependent class, resolution of the
dependency succeeds, yet the positional call fails on the duplicated
parameter. -/
theorem C9_positional_no_bypass_witness :
    get_instance 3 ct9 (Req.ty 0) none st0 = .ok (Obj.inst 0 0 [], ⟨initProviders, [], 1⟩) ∧
    construct 6 ct9 1 [Obj.ext 5] [] st0 = .error (.duplicateArg "p") :=
  ⟨rfl,
   C9_positional_no_bypass ct9 2 1 "p" (Req.ty 0) (Obj.ext 5) (Obj.inst 0 0 [])
     st0 ⟨initProviders, [], 1⟩ rfl rfl rfl rfl⟩

/-- C10: the singleton slot is looked up through the type hierarchy. For a
subclass D of a singleton declared class S: if the slot of S is set while
the slot of D is not, calling D returns the memoized instance of S with no
construction and no state change; conversely, constructing D first when no
class along its mro has a slot memoizes the new instance on D only and
leaves the slot of S empty. -/
theorem C10_slot_mro (ct : Ct) (S D : TypeId) (mrest : List TypeId) (st : DIState)
    (hne : D ≠ S)
    (hmro : (ct D).mro = D :: S :: mrest) :
    (∀ (inner : MetaKind) (f : Nat) (args : List Obj) (kw : List (String × Obj)) (r : Obj),
      (ct D).meta = .singleton inner →
      alGet st.slots D = none → alGet st.slots S = some r →
      construct (f + 1 + 1) ct D args kw st = .ok (r, st)) ∧
    (∀ (f : Nat) (r : Obj) (st1 : DIState),
      (ct D).meta = .singleton .plain →
      slotLookup ct st.slots D = none →
      construct f ct D [] [] st = .ok (r, st1) →
      alGet st.slots S = none ∧ alGet st1.slots D = some r ∧ alGet st1.slots S = none) := by
  constructor
  · intro inner f args kw r hmeta hD hS
    rw [construct, hmeta]
    simp only [metaCall, slotLookup, hmro, List.findSome?_cons, hD, hS]
  · intro f r st1 hmeta hsl hok
    have hSnone : alGet st.slots S = none := by
      have := hsl
      rw [slotLookup, hmro] at this
      simp only [List.findSome?_cons] at this
      cases hD : alGet st.slots D with
      | some x => rw [hD] at this; exact absurd this (by simp)
      | none =>
        rw [hD] at this
        cases hS : alGet st.slots S with
        | some x => rw [hS] at this; exact absurd this (by simp)
        | none => rfl
    refine ⟨hSnone, ?_, ?_⟩ <;>
    · cases f with
      | zero => exact absurd hok (by simp [construct])
      | succ f =>
        rw [construct, hmeta] at hok
        cases f with
        | zero => exact absurd hok (by simp [metaCall])
        | succ g =>
          simp only [metaCall, hsl] at hok
          cases g with
          | zero => exact absurd hok (by simp [metaCall])
          | succ h =>
            simp only [metaCall, typeCall] at hok
            cases hbind : bindParams (ct D).params [] [] with
            | error e => rw [hbind] at hok; exact absurd hok (by simp)
            | ok fields =>
              rw [hbind] at hok
              simp only [Except.ok.injEq, Prod.mk.injEq] at hok
              obtain ⟨hr, hst⟩ := hok
              rw [← hst]
              simp [alGet_alSet_self, alGet_alSet_ne _ _ _ _ hne, hSnone, hr]

/-- C10 witness: with S the singleton class 1 and D its subclass 2, a call
of D after S was memoized returns the instance of S unchanged; a call of D
on a fresh state memoizes on D only and leaves the slot of S empty. -/
theorem C10_slot_mro_witness :
    construct 3 ct10 2 [] [] ⟨initProviders, [(1, Obj.inst 0 1 [])], 1⟩ =
      .ok (Obj.inst 0 1 [], ⟨initProviders, [(1, Obj.inst 0 1 [])], 1⟩) ∧
    (alGet ([(2, Obj.inst 0 2 [])] : List (TypeId × Obj)) 2 = some (Obj.inst 0 2 []) ∧
     alGet ([(2, Obj.inst 0 2 [])] : List (TypeId × Obj)) 1 = none) :=
  ⟨(C10_slot_mro ct10 1 2 [] ⟨initProviders, [(1, Obj.inst 0 1 [])], 1⟩
      (by decide) rfl).1 .plain 1 [] [] (Obj.inst 0 1 []) rfl rfl rfl,
   (((C10_slot_mro ct10 1 2 [] st0 (by decide) rfl).2 3 (Obj.inst 0 2 [])
      ⟨initProviders, [(2, Obj.inst 0 2 [])], 1⟩ rfl rfl rfl).2)⟩

end Diy
